import Mathlib

/-!
Shallow embedding of the go-ses library (mrz1836/go-ses): the request
building, encoding, signing and dispatch pipeline of `ses.go`, together
with the earlier revision of the same package that the repository also
contains (namespace `V1`).
-/

/-- Model of Go's `url.Values`: an ordered list of key/value pairs.
`url.Values` is a `map[string][]string` and `Add` appends a value under
a key; we keep the pairs in insertion order and recover the per-key
slices with `lookupAll`. -/
abbrev Values := List (String × String)

/-- `data.Add(k, v)`: append the pair at the end. -/
def addParam (v : Values) (k val : String) : Values := v ++ [(k, val)]

/-- All values stored under key `k`, in insertion order: the slice
`data[k]` of the Go map. -/
def lookupAll (v : Values) (k : String) : List String :=
  (v.filter (fun kv => kv.1 == k)).map (fun kv => kv.2)

/-- `Values.Get`: the first value stored under the key, if any. -/
def getParam (v : Values) (k : String) : Option String :=
  (v.find? (fun kv => kv.1 == k)).map (fun kv => kv.2)

/-- Concatenation of the images of `f`, a self-contained `flatMap`. -/
def flatCat (f : α → List β) : List α → List β
  | [] => []
  | a :: as => f a ++ flatCat f as

/-- UTF-8 bytes of one character (the bytes Go ranges over in a string). -/
def utf8Bytes (c : Char) : List Nat :=
  let n := c.toNat
  if n < 128 then [n]
  else if n < 2048 then [192 ||| (n >>> 6), 128 ||| (n &&& 63)]
  else if n < 65536 then
    [224 ||| (n >>> 12), 128 ||| ((n >>> 6) &&& 63), 128 ||| (n &&& 63)]
  else
    [240 ||| (n >>> 18), 128 ||| ((n >>> 12) &&& 63),
     128 ||| ((n >>> 6) &&& 63), 128 ||| (n &&& 63)]

/-- The byte sequence of a Go string (`[]uint8(s)`). -/
def strBytes (s : String) : List Nat := flatCat utf8Bytes s.data

/-- Modelled from the spec: the standard base64 alphabet (with padding)
of Go's `encoding/base64` `StdEncoding`, which is standard library code
and not part of this repository. -/
def b64Chars : List Char :=
  "ABCDEFGHIJKLMNOPQRSTUVWXYZabcdefghijklmnopqrstuvwxyz0123456789+/".data

/-- The alphabet character for a 6-bit group. -/
def b64Char (n : Nat) : Char := b64Chars.getD n 'A'

/-- Modelled from the spec: `base64.StdEncoding.EncodeToString`
(standard alphabet, with `=` padding), standard library code not part
of this repository.  Bytes are taken three at a time into four 6-bit
groups. -/
def base64EncodeChars : List Nat → List Char
  | [] => []
  | [b1] => [b64Char (b1 / 4), b64Char (b1 % 4 * 16), '=', '=']
  | [b1, b2] =>
      [b64Char (b1 / 4), b64Char (b1 % 4 * 16 + b2 / 16), b64Char (b2 % 16 * 4), '=']
  | b1 :: b2 :: b3 :: rest =>
      b64Char (b1 / 4) :: b64Char (b1 % 4 * 16 + b2 / 16) ::
      b64Char (b2 % 16 * 4 + b3 / 64) :: b64Char (b3 % 64) :: base64EncodeChars rest

/-- String form of the base64 encoding. -/
def base64EncodeToString (bs : List Nat) : String := String.mk (base64EncodeChars bs)

/-- Index of a character in the base64 alphabet. -/
def b64Value (ch : Char) : Option Nat := b64Chars.findIdx? (fun c => c == ch)

/-- Standard base64 decoding (the inverse direction of the round-trip
law; the library itself never decodes). -/
def base64DecodeChars : List Char → Option (List Nat)
  | c1 :: c2 :: c3 :: c4 :: rest =>
      if c3 = '=' then
        if c4 = '=' then
          if rest = [] then
            match b64Value c1, b64Value c2 with
            | some v1, some v2 => some [v1 * 4 + v2 / 16]
            | _, _ => none
          else none
        else none
      else if c4 = '=' then
        if rest = [] then
          match b64Value c1, b64Value c2, b64Value c3 with
          | some v1, some v2, some v3 =>
              some [v1 * 4 + v2 / 16, v2 % 16 * 16 + v3 / 4]
          | _, _, _ => none
        else none
      else
        match b64Value c1, b64Value c2, b64Value c3, b64Value c4,
              base64DecodeChars rest with
        | some v1, some v2, some v3, some v4, some bs =>
            some ((v1 * 4 + v2 / 16) :: (v2 % 16 * 16 + v3 / 4) ::
                  (v3 % 4 * 64 + v4) :: bs)
        | _, _, _, _, _ => none
  | [] => some []
  | _ => none

/-- Base64 decoding of a string. -/
def base64DecodeString (s : String) : Option (List Nat) := base64DecodeChars s.data

/-- Lexicographic order on character lists (byte order of Go's
`sort.Strings` restricted to the ASCII keys the encoder sorts). -/
def charListLt : List Char → List Char → Bool
  | [], [] => false
  | [], _ :: _ => true
  | _ :: _, [] => false
  | a :: as, b :: bs => a < b || (a == b && charListLt as bs)

/-- String order used when sorting the form keys. -/
def strLt (a b : String) : Bool := charListLt a.data b.data

/-- Insert into a sorted list of keys. -/
def insertSorted (k : String) : List String → List String
  | [] => [k]
  | x :: xs => if strLt k x then k :: x :: xs else x :: insertSorted k xs

/-- Sort a list of keys (insertion sort). -/
def sortStrings (l : List String) : List String := l.foldr insertSorted []

/-- The distinct keys of the value list, first occurrence kept. -/
def dedupKeys : List String → List String
  | [] => []
  | k :: ks => k :: dedupKeys (ks.filter (fun x => !(x == k)))
termination_by l => l.length
decreasing_by
  simp
  exact Nat.lt_succ_of_le (List.length_filter_le _ _)

/-- Upper-case hexadecimal alphabet used by percent-escaping. -/
def hexCharsUpper : List Char := "0123456789ABCDEF".data

/-- Characters `url.QueryEscape` leaves alone: alphanumerics and
`-`, `_`, `.`, `~`. -/
def isUnescapedQueryChar (c : Char) : Bool :=
  c.isAlphanum || c == '-' || c == '_' || c == '.' || c == '~'

/-- Modelled from the spec: `url.QueryEscape` of `net/url` (standard
library, not part of this repository): space becomes `+`, unreserved
characters pass through, every other byte becomes `%XX`. -/
def queryEscape (s : String) : String :=
  String.mk (flatCat (fun c =>
    if isUnescapedQueryChar c then [c]
    else if c == ' ' then ['+']
    else flatCat (fun b =>
      ['%', hexCharsUpper.getD (b / 16 % 16) '0', hexCharsUpper.getD (b % 16) '0'])
      (utf8Bytes c)) s.data)

/-- Modelled from the spec: `url.Values.Encode` of `net/url` (standard
library, not part of this repository): keys in sorted order, each key's
values in insertion order, pairs `k=v` percent-escaped and joined by
`&`. -/
def encode (v : Values) : String :=
  let keys := sortStrings (dedupKeys (v.map (fun kv => kv.1)))
  String.intercalate "&" (flatCat (fun k =>
    (lookupAll v k).map (fun val => queryEscape k ++ "=" ++ queryEscape val)) keys)

/-- Truncation to a 32-bit word. -/
def w32 (n : Nat) : Nat := n % 4294967296

/-- Right rotation of a 32-bit word. -/
def rotr (n x : Nat) : Nat := w32 ((x >>> n) ||| (x <<< (32 - n)))

/-- Modelled from the spec: the SHA-256 round constants (`crypto/sha256`
is standard library code, not part of this repository). -/
def shaK : List Nat :=
  [1116352408, 1899447441, 3049323471, 3921009573, 961987163,
   1508970993, 2453635748, 2870763221, 3624381080, 310598401,
   607225278, 1426881987, 1925078388, 2162078206, 2614888103,
   3248222580, 3835390401, 4022224774, 264347078, 604807628,
   770255983, 1249150122, 1555081692, 1996064986, 2554220882,
   2821834349, 2952996808, 3210313671, 3336571891, 3584528711,
   113926993, 338241895, 666307205, 773529912, 1294757372,
   1396182291, 1695183700, 1986661051, 2177026350, 2456956037,
   2730485921, 2820302411, 3259730800, 3345764771, 3516065817,
   3600352804, 4094571909, 275423344, 430227734, 506948616,
   659060556, 883997877, 958139571, 1322822218, 1537002063,
   1747873779, 1955562222, 2024104815, 2227730452, 2361852424,
   2428436474, 2756734187, 3204031479, 3329325298]

/-- SHA-256 initial hash state. -/
def shaInit : List Nat :=
  [1779033703, 3144134277, 1013904242, 2773480762,
   1359893119, 2600822924, 528734635, 1541459225]

/-- Big-endian bytes of a number, `k` bytes wide. -/
def toBytesBE (k n : Nat) : List Nat :=
  (List.range k).map (fun i => (n >>> (8 * (k - 1 - i))) % 256)

/-- SHA-256 padding: `0x80`, zeros to 56 mod 64, 8-byte bit length. -/
def sha256Pad (msg : List Nat) : List Nat :=
  let L := msg.length
  msg ++ 128 :: (List.replicate ((119 - L % 64) % 64) 0 ++ toBytesBE 8 (L * 8))

/-- Split a byte list into 64-byte blocks. -/
def chunk64 : List Nat → List (List Nat)
  | [] => []
  | b :: bs => ((b :: bs).take 64) :: chunk64 ((b :: bs).drop 64)
termination_by l => l.length
decreasing_by
  simp
  omega

/-- The sixteen 32-bit words of one 64-byte block. -/
def sha256Words (block : List Nat) : List Nat :=
  (List.range 16).map (fun i =>
    block.getD (4 * i) 0 * 16777216 + block.getD (4 * i + 1) 0 * 65536 +
    block.getD (4 * i + 2) 0 * 256 + block.getD (4 * i + 3) 0)

/-- Message-schedule extension: append `k` more words. -/
def extendWords (w : List Nat) : Nat → List Nat
  | 0 => w
  | k + 1 =>
      let n := w.length
      let x15 := w.getD (n - 15) 0
      let x2 := w.getD (n - 2) 0
      let s0 := (rotr 7 x15) ^^^ (rotr 18 x15) ^^^ (x15 >>> 3)
      let s1 := (rotr 17 x2) ^^^ (rotr 19 x2) ^^^ (x2 >>> 10)
      extendWords (w ++ [w32 (w.getD (n - 16) 0 + s0 + w.getD (n - 7) 0 + s1)]) k

/-- One round of the SHA-256 compression function. -/
def shaStep (st : List Nat) (wi ki : Nat) : List Nat :=
  let a := st.getD 0 0
  let b := st.getD 1 0
  let c := st.getD 2 0
  let d := st.getD 3 0
  let e := st.getD 4 0
  let f := st.getD 5 0
  let g := st.getD 6 0
  let h := st.getD 7 0
  let s1e := (rotr 6 e) ^^^ (rotr 11 e) ^^^ (rotr 25 e)
  let ch := (e &&& f) ^^^ ((e ^^^ 4294967295) &&& g)
  let t1 := w32 (h + s1e + ch + ki + wi)
  let s0a := (rotr 2 a) ^^^ (rotr 13 a) ^^^ (rotr 22 a)
  let maj := (a &&& b) ^^^ (a &&& c) ^^^ (b &&& c)
  let t2 := w32 (s0a + maj)
  [w32 (t1 + t2), a, b, c, w32 (d + t1), e, f, g]

/-- Compression of one block into the running hash state. -/
def shaCompress (h : List Nat) (block : List Nat) : List Nat :=
  let w := extendWords (sha256Words block) 48
  let fin := (List.range 64).foldl
    (fun st i => shaStep st (w.getD i 0) (shaK.getD i 0)) h
  (List.range 8).map (fun i => w32 (h.getD i 0 + fin.getD i 0))

/-- Modelled from the spec: SHA-256 over a byte sequence
(`crypto/sha256`, standard library code not part of this repository). -/
def sha256 (msg : List Nat) : List Nat :=
  flatCat (toBytesBE 4) ((chunk64 (sha256Pad msg)).foldl shaCompress shaInit)

/-- Modelled from the spec: HMAC-SHA256 with the given key
(`crypto/hmac`, standard library code not part of this repository). -/
def hmacSha256 (key msg : List Nat) : List Nat :=
  let k0 := if 64 < key.length then sha256 key else key
  let k := k0 ++ List.replicate (64 - k0.length) 0
  let ipad := k.map (fun b => b ^^^ 54)
  let opad := k.map (fun b => b ^^^ 92)
  sha256 (opad ++ sha256 (ipad ++ msg))

/-- Lower-case hexadecimal alphabet. -/
def hexCharsLower : List Char := "0123456789abcdef".data

/-- Lower-case hex string of a byte sequence. -/
def hexDigest (bs : List Nat) : String :=
  String.mk (flatCat (fun b =>
    [hexCharsLower.getD (b / 16 % 16) '0', hexCharsLower.getD (b % 16) '0']) bs)

/-- `Config` of `ses.go`: endpoint, region and credentials.  The
`HTTPClient` field is the injected transport capability; in this model
the transport's behaviour is supplied as an explicit outcome (`SesEnv`)
instead of a function value. -/
structure Config where
  Endpoint : String
  Region : String
  AccessKeyID : String
  SecretAccessKey : String
deriving Repr, DecidableEq

/-- The loop body `data.Add(fmt.Sprintf("...member.%d", i+start), xs[i])`
of `fillRecipients`, with the running index made explicit: the current
code starts every list at 1; the older `SendEmail` starts the To list
at 11 (`i+11`). -/
def addMembersFrom (d : Values) (pfx : String) (start : Nat) : List String → Values
  | [] => d
  | x :: xs => addMembersFrom (addParam d (pfx ++ toString start) x) pfx (start + 1) xs

/-- `fillRecipients` of `ses.go`: `Source`, then the To, Cc and Bcc
lists, each behind a `len > 0` guard, each indexed from 1. -/
def fillRecipients (fromAddr : String) (toAddrs cc bcc : List String) (data : Values) : Values :=
  let d := addParam data "Source" fromAddr
  let d := if 0 < toAddrs.length then addMembersFrom d "Destination.ToAddresses.member." 1 toAddrs else d
  let d := if 0 < cc.length then addMembersFrom d "Destination.CcAddresses.member." 1 cc else d
  if 0 < bcc.length then addMembersFrom d "Destination.BccAddresses.member." 1 bcc else d

/-- `fillRecipients` with the three `len > 0` guards removed (the
`todo` in the source asks whether they are redundant). -/
def fillRecipientsNoGuard (fromAddr : String) (toAddrs cc bcc : List String) (data : Values) : Values :=
  let d := addParam data "Source" fromAddr
  let d := addMembersFrom d "Destination.ToAddresses.member." 1 toAddrs
  let d := addMembersFrom d "Destination.CcAddresses.member." 1 cc
  addMembersFrom d "Destination.BccAddresses.member." 1 bcc

/-- The form parameters built by `SendEmail` before it posts. -/
def sendEmailData (c : Config) (fromAddr : String) (toAddrs cc bcc : List String)
    (subject body : String) : Values :=
  let d := addParam [] "Action" "SendEmail"
  let d := fillRecipients fromAddr toAddrs cc bcc d
  let d := addParam d "Message.Subject.Data" subject
  let d := addParam d "Message.Body.Text.Data" body
  addParam d "AWSAccessKeyId" c.AccessKeyID

/-- The form parameters built by `SendEmailHTML` before it posts. -/
def sendEmailHTMLData (c : Config) (fromAddr : String) (toAddrs cc bcc : List String)
    (subject bodyText bodyHTML : String) : Values :=
  let d := addParam [] "Action" "SendEmail"
  let d := fillRecipients fromAddr toAddrs cc bcc d
  let d := addParam d "Message.Subject.Data" subject
  let d := addParam d "Message.Body.Text.Data" bodyText
  let d := addParam d "Message.Body.Html.Data" bodyHTML
  addParam d "AWSAccessKeyId" c.AccessKeyID

/-- The form parameters built by `SendRawEmail` before it posts. -/
def sendRawEmailData (c : Config) (raw : List Nat) : Values :=
  let d := addParam [] "Action" "SendRawEmail"
  let d := addParam d "RawMessage.Data" (base64EncodeToString raw)
  addParam d "AWSAccessKeyId" c.AccessKeyID

/-- An HTTP request as this client assembles it. -/
structure Request where
  method : String
  url : String
  headers : List (String × String)
  body : String
deriving Repr, DecidableEq

/-- The value of a header, first match. -/
def requestHeader (r : Request) (name : String) : Option String :=
  (r.headers.find? (fun kv => kv.1 == name)).map (fun kv => kv.2)

/-- Modelled from the spec: the scoped (SigV4-style) derived signing key
chain of the AWS SDK signer (`aws-sdk-go/aws/signer/v4`, external to
this repository): HMAC-SHA256 chained over date, region, the fixed
service identifier `email` and `aws4_request`, starting from
`AWS4` + secret. -/
def sigv4DerivedKey (secret scopeDate region : String) : List Nat :=
  hmacSha256 (hmacSha256 (hmacSha256 (hmacSha256
    (strBytes ("AWS4" ++ secret)) (strBytes scopeDate))
    (strBytes region)) (strBytes "email")) (strBytes "aws4_request")

/-- Modelled from the spec: the canonical request representation
covering method, URL, the canonical headers (content-type, date) and
the SHA-256 hash of the body. -/
def sigv4CanonicalRequest (method url contentType date body : String) : String :=
  method ++ "\n" ++ url ++ "\n" ++ contentType ++ "\n" ++ date ++ "\n" ++
  "content-type;date;host;x-amz-date" ++ "\n" ++ hexDigest (sha256 (strBytes body))

/-- Modelled from the spec: the string-to-sign built from the algorithm
tag, the timestamp, the credential scope and the canonical request
hash. -/
def sigv4StringToSign (timestamp scope canonHash : String) : String :=
  "AWS4-HMAC-SHA256" ++ "\n" ++ timestamp ++ "\n" ++ scope ++ "\n" ++ canonHash

/-- Modelled from the spec: the authorization header value the SigV4
signer produces, `AWS4-HMAC-SHA256 Credential=<id>/<scope>,
SignedHeaders=..., Signature=<hex>`. -/
def sigv4AuthValue (c : Config) (scopeDate timestamp method url contentType date body : String) :
    String :=
  let scope := scopeDate ++ "/" ++ c.Region ++ "/email/aws4_request"
  let canon := sigv4CanonicalRequest method url contentType date body
  let sig := hexDigest (hmacSha256 (sigv4DerivedKey c.SecretAccessKey scopeDate c.Region)
    (strBytes (sigv4StringToSign timestamp scope (hexDigest (sha256 (strBytes canon))))))
  ("AWS4-HMAC-SHA256 Credential=" ++ c.AccessKeyID) ++
    ("/" ++ scope ++ ", SignedHeaders=content-type;date;host;x-amz-date, Signature=" ++ sig)

/-- Modelled from the spec: `Signer.Sign` of the AWS SDK (external to
this repository) signs the request over the supplied body and attaches
the body and the authorization header to it. -/
def sigv4Sign (c : Config) (req : Request) (body scopeDate timestamp : String) : Request :=
  let auth := sigv4AuthValue c scopeDate timestamp req.method req.url
    ((requestHeader req "Content-Type").getD "") ((requestHeader req "Date").getD "") body
  { req with body := body, headers := req.headers ++ [("Authorization", auth)] }

/-- Lines 247-262 of `ses.go`: the request `sesPost` builds and signs —
`POST` to the endpoint, `Content-Type` and `Date` headers, then
`sigv4` over `data.Encode()`.  `now` is the formatted timestamp
(`time.Now` is external) and `scopeDate` its `yyyymmdd` form used in
the credential scope. -/
def buildSignedRequest (c : Config) (data : Values) (now scopeDate : String) : Request :=
  let req : Request :=
    { method := "POST", url := c.Endpoint,
      headers := [("Content-Type", "application/x-www-form-urlencoded")], body := "" }
  let req := { req with headers := req.headers ++ [("Date", now)] }
  sigv4Sign c req (encode data) scopeDate now

/-- Outcome of `ioutil.ReadAll`/transport calls: `ok` or an error. -/
structure HttpResponse where
  statusCode : Nat
  readBody : Except String String
deriving Repr

/-- The external effects a call to `sesPost` observes: whether
`http.NewRequestWithContext` fails, whether the signer fails, and what
the injected transport (`HTTPClient.Do`) returns. -/
structure SesEnv where
  newRequestErr : Option String
  signErr : Option String
  doResult : Except String HttpResponse
deriving Repr

/-- What a call to `sesPost` returns and what it did to the response
body resource: the result string, the error (if any), whether the
response body was closed before returning, and whether a response was
received at all. -/
structure PostOutcome where
  result : String
  err : Option String
  bodyClosed : Bool
  gotResponse : Bool
deriving Repr, DecidableEq

/-- `fmt.Errorf("error code %d. response: %s", statusCode, body)`. -/
def errorCodeMsg (status : Nat) (body : String) : String :=
  ("error code " ++ toString status) ++ (". response: " ++ body)

/-- Lines 244-288 of `ses.go` (`sesPost`), as a function of the
external outcomes.  Go's `defer` runs registered calls at return: the
`Close` of the response body is registered only after `ReadAll`
succeeds, so the early return on a read error leaves the body open,
while the non-200 return and the success return (both after the
`defer`) close it. -/
def sesPostExec (c : Config) (data : Values) (env : SesEnv) : PostOutcome :=
  match env.newRequestErr with
  | some e => { result := "", err := some e, bodyClosed := false, gotResponse := false }
  | none =>
    match env.signErr with
    | some e => { result := "", err := some e, bodyClosed := false, gotResponse := false }
    | none =>
      match env.doResult with
      | Except.error e =>
          { result := "", err := some e, bodyClosed := false, gotResponse := false }
      | Except.ok resp =>
        match resp.readBody with
        | Except.error e =>
            { result := "", err := some e, bodyClosed := false, gotResponse := true }
        | Except.ok b =>
          if resp.statusCode ≠ 200 then
            { result := "", err := some (errorCodeMsg resp.statusCode b),
              bodyClosed := true, gotResponse := true }
          else
            { result := b, err := none, bodyClosed := true, gotResponse := true }

/-- `Config.SendEmail`: build the form data, then post it. -/
def sendEmail (c : Config) (fromAddr : String) (toAddrs cc bcc : List String)
    (subject body : String) (env : SesEnv) : PostOutcome :=
  sesPostExec c (sendEmailData c fromAddr toAddrs cc bcc subject body) env

/-- `Config.SendEmailHTML`: build the form data, then post it. -/
def sendEmailHTML (c : Config) (fromAddr : String) (toAddrs cc bcc : List String)
    (subject bodyText bodyHTML : String) (env : SesEnv) : PostOutcome :=
  sesPostExec c (sendEmailHTMLData c fromAddr toAddrs cc bcc subject bodyText bodyHTML) env

/-- `Config.SendRawEmail`: build the form data, then post it. -/
def sendRawEmail (c : Config) (raw : List Nat) (env : SesEnv) : PostOutcome :=
  sesPostExec c (sendRawEmailData c raw) env

namespace V1

/-- The date-based HMAC authorization value of the older revision
(`authorizationHeader` and the inline copies in `sesGet`/`sesPost`):
`AWS3-HTTPS AWSAccessKeyId=<id>, Algorithm=HmacSHA256,
Signature=<base64 HMAC-SHA256 of the date string>`. -/
def authValue (date accessKeyID secretAccessKey : String) : String :=
  ("AWS3-HTTPS AWSAccessKeyId=" ++ accessKeyID) ++
    (", Algorithm=HmacSHA256, Signature=" ++
      base64EncodeToString (hmacSha256 (strBytes secretAccessKey) (strBytes date)))

/-- `authorizationHeader` of the older revision: returns the single
header value as a `[]string`. -/
def authorizationHeader (date accessKeyID secretAccessKey : String) : List String :=
  [authValue date accessKeyID secretAccessKey]

/-- The older revision's `SendEmail` form data.  Note the To loop uses
`i+11` where every other list uses `i+1` (the `!= nil` guards change
nothing: a loop over an empty slice adds no field). -/
def sendEmailData (accessKeyID fromAddr : String) (toAddrs cc bcc : List String)
    (subject body : String) : Values :=
  let d := addParam (addParam [] "Action" "SendEmail") "Source" fromAddr
  let d := addMembersFrom d "Destination.ToAddresses.member." 11 toAddrs
  let d := addMembersFrom d "Destination.CcAddresses.member." 1 cc
  let d := addMembersFrom d "Destination.BccAddresses.member." 1 bcc
  addParam (addParam (addParam d "Message.Subject.Data" subject)
    "Message.Body.Text.Data" body) "AWSAccessKeyId" accessKeyID

/-- The request the older revision's `sesPost` builds (lines 156-170):
`POST` to the endpoint with the encoded data as body set at
construction, `Content-Type`, `Date` and `X-Amzn-Authorization`
headers. -/
def sesPostRequest (data : Values) (endpoint accessKeyID secretAccessKey date : String) :
    Request :=
  { method := "POST", url := endpoint,
    headers := [("Content-Type", "application/x-www-form-urlencoded"),
                ("Date", date),
                ("X-Amzn-Authorization", authValue date accessKeyID secretAccessKey)],
    body := encode data }

end V1

/-- The list of pairs a member loop appends: key `pfx ++ <start+i>`,
value the i-th list element, in list order. -/
def membersFrom (pfx : String) (start : Nat) : List String → Values
  | [] => []
  | x :: xs => (pfx ++ toString start, x) :: membersFrom pfx (start + 1) xs

theorem addMembersFrom_eq (pfx : String) (xs : List String) :
    ∀ (d : Values) (start : Nat),
      addMembersFrom d pfx start xs = d ++ membersFrom pfx start xs := by
  induction xs with
  | nil => intro d st; simp [addMembersFrom, membersFrom]
  | cons x xs ih => intro d st; simp [addMembersFrom, membersFrom, addParam, ih]

/-- Claim C10: the request-building phase is total — in this embedding
every builder is a total function — and the `len > 0` guards in
`fillRecipients` are redundant: with them or without them the encoded
parameters are identical, and a nil recipient list (which has length 0,
like an empty one) contributes nothing. -/
theorem c10_guards_redundant (fromAddr : String) (toAddrs cc bcc : List String)
    (data : Values) :
    fillRecipients fromAddr toAddrs cc bcc data =
      fillRecipientsNoGuard fromAddr toAddrs cc bcc data := by
  cases toAddrs <;> cases cc <;> cases bcc <;>
    simp [fillRecipients, fillRecipientsNoGuard, addMembersFrom]

/-- Claim C8: the request builders are deterministic pure functions of
their inputs; two configurations agreeing on the access key id (the
only configuration field the builder reads) give byte-identical encoded
bodies for all three builders, whatever the secret key, region or
endpoint, and the builders set no signature or timestamp field. -/
theorem c8_builder_deterministic (c1 c2 : Config) (fromAddr subject body bodyHTML : String)
    (toAddrs cc bcc : List String) (raw : List Nat)
    (h : c1.AccessKeyID = c2.AccessKeyID) :
    encode (sendEmailData c1 fromAddr toAddrs cc bcc subject body) =
      encode (sendEmailData c2 fromAddr toAddrs cc bcc subject body) ∧
    encode (sendEmailHTMLData c1 fromAddr toAddrs cc bcc subject body bodyHTML) =
      encode (sendEmailHTMLData c2 fromAddr toAddrs cc bcc subject body bodyHTML) ∧
    encode (sendRawEmailData c1 raw) = encode (sendRawEmailData c2 raw) := by
  refine ⟨?_, ?_, ?_⟩ <;> simp [sendEmailData, sendEmailHTMLData, sendRawEmailData, h]

/-- A concrete configuration used by the closed instances. -/
def cfg0 : Config :=
  { Endpoint := "https://email.us-east-1.amazonaws.com", Region := "us-east-1",
    AccessKeyID := "AKID", SecretAccessKey := "secret0" }

/-- A second configuration with the same access key id but different
secret, region and endpoint. -/
def cfg1 : Config :=
  { Endpoint := "https://email.eu-west-1.amazonaws.com", Region := "eu-west-1",
    AccessKeyID := "AKID", SecretAccessKey := "secret1" }

/-- Closed instance of `c8_builder_deterministic`. -/
theorem c8_witness :
    encode (sendEmailData cfg0 "f" ["t"] [] [] "s" "b") =
      encode (sendEmailData cfg1 "f" ["t"] [] [] "s" "b") ∧
    encode (sendEmailHTMLData cfg0 "f" ["t"] [] [] "s" "b" "h") =
      encode (sendEmailHTMLData cfg1 "f" ["t"] [] [] "s" "b" "h") ∧
    encode (sendRawEmailData cfg0 [77]) = encode (sendRawEmailData cfg1 [77]) :=
  c8_builder_deterministic cfg0 cfg1 "f" "s" "b" "h" ["t"] [] [] [77] rfl

/-- Claim C2: at the failing input — the transport returns a response
whose body read fails — `sesPost` returns the read error with the
response body still open (`bodyClosed = false` despite
`gotResponse = true`): the deferred `Close` is registered only after
the early return, so the body is not closed on that exit path. -/
theorem c2_body_not_closed_on_read_failure :
    sesPostExec cfg0 [] ⟨none, none, Except.ok ⟨200, Except.error "read failed"⟩⟩ =
      ⟨"", some "read failed", false, true⟩ :=
  rfl

/-- Claim C9: whenever `sesPost` returns an error — construction
failure, signing failure, transport failure, body-read failure or
non-200 status — the string result it returns alongside is empty. -/
theorem c9_error_empty_result (c : Config) (data : Values) (env : SesEnv)
    (h : (sesPostExec c data env).err ≠ none) :
    (sesPostExec c data env).result = "" := by
  rcases env with ⟨nr, se, dr⟩
  cases nr with
  | some e => rfl
  | none =>
    cases se with
    | some e => rfl
    | none =>
      cases dr with
      | error e => rfl
      | ok resp =>
        cases hrb : resp.readBody with
        | error e => simp [sesPostExec, hrb]
        | ok b =>
          by_cases hs : resp.statusCode = 200
          · exact absurd (by simp [sesPostExec, hrb, hs]) h
          · simp [sesPostExec, hrb, hs]

/-- Closed instance of `c9_error_empty_result` at a transport failure. -/
theorem c9_witness :
    (sesPostExec cfg0 [] ⟨none, none, Except.error "dial tcp: connection refused"⟩).result = "" :=
  c9_error_empty_result cfg0 [] ⟨none, none, Except.error "dial tcp: connection refused"⟩
    (by decide)

/-- Claim C4: with a received response, a 200 status returns exactly the
body read as the success result; any other status fails with an error
carrying both the status code and the body and an empty result; a body
read failure still yields an error. -/
theorem c4_response_mapping (c : Config) (data : Values) (resp : HttpResponse) :
    (∀ b, resp.readBody = Except.ok b →
      (resp.statusCode = 200 →
        sesPostExec c data ⟨none, none, Except.ok resp⟩ = ⟨b, none, true, true⟩) ∧
      (resp.statusCode ≠ 200 →
        sesPostExec c data ⟨none, none, Except.ok resp⟩ =
          ⟨"", some (errorCodeMsg resp.statusCode b), true, true⟩)) ∧
    (∀ e, resp.readBody = Except.error e →
      sesPostExec c data ⟨none, none, Except.ok resp⟩ = ⟨"", some e, false, true⟩) := by
  refine ⟨fun b hb => ⟨fun hs => ?_, fun hs => ?_⟩, fun e he => ?_⟩
  · simp [sesPostExec, hb, hs]
  · simp [sesPostExec, hb, hs]
  · simp [sesPostExec, he]

/-- Closed instance of `c4_response_mapping`: status 400 with an error
body fails with the error carrying 400 and the body. -/
theorem c4_witness :
    sesPostExec cfg0 [] ⟨none, none, Except.ok ⟨400, Except.ok "message failed"⟩⟩ =
      ⟨"", some (errorCodeMsg 400 "message failed"), true, true⟩ :=
  ((c4_response_mapping cfg0 [] ⟨400, Except.ok "message failed"⟩).1
    "message failed" rfl).2 (by decide)

/-- Claim C1: at the failing input — the older revision's `SendEmail`
with a single To recipient — the encoded parameters carry the To
address under `Destination.ToAddresses.member.11` (the loop adds
`i+11`), and no `Destination.ToAddresses.member.1` field exists, so the
To indices are neither 1-based nor contiguous there; the current
`fillRecipients` path indexes every list from 1. -/
theorem c1_v1_to_index_eleven :
    getParam (V1.sendEmailData "AKID" "a@x.com" ["b@x.com"] [] [] "subject" "body")
      "Destination.ToAddresses.member.1" = none ∧
    getParam (V1.sendEmailData "AKID" "a@x.com" ["b@x.com"] [] [] "subject" "body")
      "Destination.ToAddresses.member.11" = some "b@x.com" := by
  constructor <;> rfl

theorem b64Value_b64Char (n : Nat) (h : n < 64) : b64Value (b64Char n) = some n := by
  exact (show ∀ m, m < 64 → b64Value (b64Char m) = some m by decide) n h

theorem b64Char_ne_pad (n : Nat) : b64Char n ≠ '=' := by
  by_cases h : n < 64
  · exact (show ∀ m, m < 64 → b64Char m ≠ '=' by decide) n h
  · show b64Chars.getD n 'A' ≠ '='
    rw [List.getD_eq_default]
    · decide
    · exact le_trans (by decide) (Nat.le_of_not_lt h)

theorem b64_roundtrip : ∀ (bs : List Nat), (∀ b ∈ bs, b < 256) →
    base64DecodeChars (base64EncodeChars bs) = some bs
  | [], _ => rfl
  | [b1], h => by
      have hb1 : b1 < 256 := h b1 (by simp)
      have h1 : b1 / 4 < 64 := by omega
      have h2 : b1 % 4 * 16 < 64 := by omega
      simp [base64EncodeChars, base64DecodeChars,
        b64Value_b64Char _ h1, b64Value_b64Char _ h2]
      omega
  | [b1, b2], h => by
      have hb1 : b1 < 256 := h b1 (by simp)
      have hb2 : b2 < 256 := h b2 (by simp)
      have h1 : b1 / 4 < 64 := by omega
      have h2 : b1 % 4 * 16 + b2 / 16 < 64 := by omega
      have h3 : b2 % 16 * 4 < 64 := by omega
      simp [base64EncodeChars, base64DecodeChars, b64Char_ne_pad,
        b64Value_b64Char _ h1, b64Value_b64Char _ h2, b64Value_b64Char _ h3]
      omega
  | b1 :: b2 :: b3 :: rest, h => by
      have hb1 : b1 < 256 := h b1 (by simp)
      have hb2 : b2 < 256 := h b2 (by simp)
      have hb3 : b3 < 256 := h b3 (by simp)
      have h1 : b1 / 4 < 64 := by omega
      have h2 : b1 % 4 * 16 + b2 / 16 < 64 := by omega
      have h3 : b2 % 16 * 4 + b3 / 64 < 64 := by omega
      have h4 : b3 % 64 < 64 := by omega
      have ih := b64_roundtrip rest (fun b hb => h b (by simp [hb]))
      simp [base64EncodeChars, base64DecodeChars, b64Char_ne_pad,
        b64Value_b64Char _ h1, b64Value_b64Char _ h2, b64Value_b64Char _ h3,
        b64Value_b64Char _ h4, ih]
      omega

/-- Claim C5: `SendRawEmail` encodes `RawMessage.Data` as the
standard-alphabet padded base64 of the raw message bytes, and decoding
that value gives back exactly the original bytes, for every byte
sequence including the empty one. -/
theorem c5_raw_base64_roundtrip (c : Config) (raw : List Nat) (h : ∀ b ∈ raw, b < 256) :
    getParam (sendRawEmailData c raw) "RawMessage.Data" = some (base64EncodeToString raw) ∧
    base64DecodeString (base64EncodeToString raw) = some raw := by
  constructor
  · rfl
  · simpa [base64DecodeString, base64EncodeToString] using b64_roundtrip raw h

/-- Closed instance of `c5_raw_base64_roundtrip` on the bytes of
`"Man"`. -/
theorem c5_witness :
    getParam (sendRawEmailData cfg0 [77, 97, 110]) "RawMessage.Data" =
      some (base64EncodeToString [77, 97, 110]) ∧
    base64DecodeString (base64EncodeToString [77, 97, 110]) = some [77, 97, 110] :=
  c5_raw_base64_roundtrip cfg0 [77, 97, 110] (by decide)

theorem strData_append (a b : String) : (a ++ b).data = a.data ++ b.data := rfl

theorem append_ne_of_head_ne {p k : String} {c : Char} (hp : p.data.head? = some c)
    (hk : k.data.head? ≠ some c) (s : String) : p ++ s ≠ k := by
  intro h
  apply hk
  rw [← h, strData_append]
  cases hpd : p.data with
  | nil => rw [hpd] at hp; simp at hp
  | cons a t => rw [hpd] at hp; simpa using hp

theorem lookupAll_append (a b : Values) (k : String) :
    lookupAll (a ++ b) k = lookupAll a k ++ lookupAll b k := by
  simp [lookupAll, List.filter_append]

theorem lookupAll_nil (k : String) : lookupAll [] k = [] := rfl

theorem lookupAll_cons (a b : String) (v : Values) (k : String) :
    lookupAll ((a, b) :: v) k =
      if a == k then b :: lookupAll v k else lookupAll v k := by
  simp only [lookupAll, List.filter_cons]
  split <;> simp_all

theorem lookupAll_members_of_ne (pfx k : String) (h : ∀ s : String, pfx ++ s ≠ k) :
    ∀ (start : Nat) (xs : List String), lookupAll (membersFrom pfx start xs) k = [] := by
  intro start xs
  induction xs generalizing start with
  | nil => rfl
  | cons x xs ih =>
    have hne : ((pfx ++ toString start : String) == k) = false := by
      simpa using h (toString start)
    simp [membersFrom, lookupAll, hne] at *
    exact ih (start + 1)

theorem lookupAll_members_ne (pfx k : String) (c : Char) (hp : pfx.data.head? = some c)
    (hk : k.data.head? ≠ some c) (start : Nat) (xs : List String) :
    lookupAll (membersFrom pfx start xs) k = [] :=
  lookupAll_members_of_ne pfx k (fun s => append_ne_of_head_ne hp hk s) start xs

theorem fillRecipients_eq (fromAddr : String) (toAddrs cc bcc : List String)
    (data : Values) :
    fillRecipients fromAddr toAddrs cc bcc data =
      fillRecipientsNoGuard fromAddr toAddrs cc bcc data := by
  cases toAddrs <;> cases cc <;> cases bcc <;>
    simp [fillRecipients, fillRecipientsNoGuard, addMembersFrom]

theorem sendEmailData_decomp (c : Config) (fromAddr : String) (toAddrs cc bcc : List String)
    (subject body : String) :
    sendEmailData c fromAddr toAddrs cc bcc subject body =
      [("Action", "SendEmail"), ("Source", fromAddr)] ++
      membersFrom "Destination.ToAddresses.member." 1 toAddrs ++
      membersFrom "Destination.CcAddresses.member." 1 cc ++
      membersFrom "Destination.BccAddresses.member." 1 bcc ++
      [("Message.Subject.Data", subject), ("Message.Body.Text.Data", body),
       ("AWSAccessKeyId", c.AccessKeyID)] := by
  simp [sendEmailData, fillRecipients_eq, fillRecipientsNoGuard, addMembersFrom_eq, addParam]

theorem sendEmailHTMLData_decomp (c : Config) (fromAddr : String)
    (toAddrs cc bcc : List String) (subject bodyText bodyHTML : String) :
    sendEmailHTMLData c fromAddr toAddrs cc bcc subject bodyText bodyHTML =
      [("Action", "SendEmail"), ("Source", fromAddr)] ++
      membersFrom "Destination.ToAddresses.member." 1 toAddrs ++
      membersFrom "Destination.CcAddresses.member." 1 cc ++
      membersFrom "Destination.BccAddresses.member." 1 bcc ++
      [("Message.Subject.Data", subject), ("Message.Body.Text.Data", bodyText),
       ("Message.Body.Html.Data", bodyHTML), ("AWSAccessKeyId", c.AccessKeyID)] := by
  simp [sendEmailHTMLData, fillRecipients_eq, fillRecipientsNoGuard, addMembersFrom_eq,
    addParam]

theorem lookupAll_sendEmailData (c : Config) (fromAddr : String)
    (toAddrs cc bcc : List String) (subject body : String) (k : String)
    (hk : k.data.head? ≠ some 'D') :
    lookupAll (sendEmailData c fromAddr toAddrs cc bcc subject body) k =
      lookupAll [("Action", "SendEmail"), ("Source", fromAddr),
        ("Message.Subject.Data", subject), ("Message.Body.Text.Data", body),
        ("AWSAccessKeyId", c.AccessKeyID)] k := by
  rw [sendEmailData_decomp]
  simp [lookupAll_append, lookupAll_cons, lookupAll_nil,
    lookupAll_members_ne "Destination.ToAddresses.member." k 'D' rfl hk,
    lookupAll_members_ne "Destination.CcAddresses.member." k 'D' rfl hk,
    lookupAll_members_ne "Destination.BccAddresses.member." k 'D' rfl hk]

theorem lookupAll_sendEmailHTMLData (c : Config) (fromAddr : String)
    (toAddrs cc bcc : List String) (subject bodyText bodyHTML : String) (k : String)
    (hk : k.data.head? ≠ some 'D') :
    lookupAll (sendEmailHTMLData c fromAddr toAddrs cc bcc subject bodyText bodyHTML) k =
      lookupAll [("Action", "SendEmail"), ("Source", fromAddr),
        ("Message.Subject.Data", subject), ("Message.Body.Text.Data", bodyText),
        ("Message.Body.Html.Data", bodyHTML), ("AWSAccessKeyId", c.AccessKeyID)] k := by
  rw [sendEmailHTMLData_decomp]
  simp [lookupAll_append, lookupAll_cons, lookupAll_nil,
    lookupAll_members_ne "Destination.ToAddresses.member." k 'D' rfl hk,
    lookupAll_members_ne "Destination.CcAddresses.member." k 'D' rfl hk,
    lookupAll_members_ne "Destination.BccAddresses.member." k 'D' rfl hk]

/-- Claim C6: `SendEmailHTML` encodes both `Message.Body.Text.Data`
(= bodyText) and `Message.Body.Html.Data` (= bodyHTML); `SendEmail`
encodes `Message.Body.Text.Data` (= body) and never a
`Message.Body.Html.Data` field; both set `Action=SendEmail`,
`Source=from` and `Message.Subject.Data=subject` — each exactly once,
for every input. -/
theorem c6_body_fields (c : Config) (fromAddr subject body bodyText bodyHTML : String)
    (toAddrs cc bcc : List String) :
    lookupAll (sendEmailHTMLData c fromAddr toAddrs cc bcc subject bodyText bodyHTML)
      "Message.Body.Text.Data" = [bodyText] ∧
    lookupAll (sendEmailHTMLData c fromAddr toAddrs cc bcc subject bodyText bodyHTML)
      "Message.Body.Html.Data" = [bodyHTML] ∧
    lookupAll (sendEmailData c fromAddr toAddrs cc bcc subject body)
      "Message.Body.Text.Data" = [body] ∧
    lookupAll (sendEmailData c fromAddr toAddrs cc bcc subject body)
      "Message.Body.Html.Data" = [] ∧
    lookupAll (sendEmailData c fromAddr toAddrs cc bcc subject body)
      "Action" = ["SendEmail"] ∧
    lookupAll (sendEmailHTMLData c fromAddr toAddrs cc bcc subject bodyText bodyHTML)
      "Action" = ["SendEmail"] ∧
    lookupAll (sendEmailData c fromAddr toAddrs cc bcc subject body)
      "Source" = [fromAddr] ∧
    lookupAll (sendEmailHTMLData c fromAddr toAddrs cc bcc subject bodyText bodyHTML)
      "Source" = [fromAddr] ∧
    lookupAll (sendEmailData c fromAddr toAddrs cc bcc subject body)
      "Message.Subject.Data" = [subject] ∧
    lookupAll (sendEmailHTMLData c fromAddr toAddrs cc bcc subject bodyText bodyHTML)
      "Message.Subject.Data" = [subject] := by
  refine ⟨?_, ?_, ?_, ?_, ?_, ?_, ?_, ?_, ?_, ?_⟩ <;>
    first
    | (rw [lookupAll_sendEmailData c fromAddr toAddrs cc bcc subject body _ (by decide)]
       simp [lookupAll_cons, lookupAll_nil])
    | (rw [lookupAll_sendEmailHTMLData c fromAddr toAddrs cc bcc subject bodyText bodyHTML _
         (by decide)]
       simp [lookupAll_cons, lookupAll_nil])

/-- Boolean test: the first list is an initial segment of the second. -/
def listIsPfx : List Char → List Char → Bool
  | [], _ => true
  | _ :: _, [] => false
  | a :: as, b :: bs => a == b && listIsPfx as bs

/-- The string `p` is an initial segment of `s`. -/
def strHasPfx (p s : String) : Bool := listIsPfx p.data s.data

/-- The string `needle` occurs verbatim inside `s`. -/
def strOccurs (needle s : String) : Prop := ∃ l r : String, s = (l ++ needle) ++ r

theorem strOccurs_cat (needle l r : String) : strOccurs needle ((l ++ needle) ++ r) :=
  ⟨l, r, rfl⟩

theorem listIsPfx_append (p a t : List Char) (h : listIsPfx p a = true) :
    listIsPfx p (a ++ t) = true := by
  induction p generalizing a with
  | nil => rfl
  | cons x xs ih =>
    cases a with
    | nil => simp [listIsPfx] at h
    | cons y ys =>
      simp [listIsPfx] at h ⊢
      exact ⟨h.1, ih ys h.2⟩

theorem strHasPfx_append (p lit mid t : String) (h : listIsPfx p.data lit.data = true) :
    strHasPfx p ((lit ++ mid) ++ t) = true := by
  show listIsPfx p.data (((lit ++ mid) ++ t).data) = true
  rw [strData_append, strData_append, List.append_assoc]
  exact listIsPfx_append _ _ _ h

/-- Claim C7: the authorization header value always starts with the
documented algorithm token of the chosen signing scheme and contains
the configured access key id verbatim; under the date-based scheme the
header is exactly `AWS3-HTTPS AWSAccessKeyId=<id>,
Algorithm=HmacSHA256, Signature=<base64 HMAC-SHA256 of the date string
keyed by the secret key>`. -/
theorem c7_authorization_format (date accessKeyID secretAccessKey : String) (c : Config)
    (scopeDate timestamp method url contentType dateHeader body : String) :
    V1.authorizationHeader date accessKeyID secretAccessKey =
      [("AWS3-HTTPS AWSAccessKeyId=" ++ accessKeyID) ++
        (", Algorithm=HmacSHA256, Signature=" ++
          base64EncodeToString (hmacSha256 (strBytes secretAccessKey) (strBytes date)))] ∧
    strHasPfx "AWS3-HTTPS " (V1.authValue date accessKeyID secretAccessKey) = true ∧
    strOccurs accessKeyID (V1.authValue date accessKeyID secretAccessKey) ∧
    strHasPfx "AWS4-HMAC-SHA256 "
      (sigv4AuthValue c scopeDate timestamp method url contentType dateHeader body) = true ∧
    strOccurs c.AccessKeyID
      (sigv4AuthValue c scopeDate timestamp method url contentType dateHeader body) := by
  refine ⟨rfl, ?_, ?_, ?_, ?_⟩
  · simp only [V1.authValue]
    exact strHasPfx_append _ _ _ _ (by decide)
  · simp only [V1.authValue]
    exact strOccurs_cat _ _ _
  · simp only [sigv4AuthValue]
    exact strHasPfx_append _ _ _ _ (by decide)
  · simp only [sigv4AuthValue]
    exact strOccurs_cat _ _ _

/-- Claim C3: the one request a send builds is a `POST` to the
configured endpoint with `Content-Type:
application/x-www-form-urlencoded`, its `Date` header is the signing
timestamp and its body is the URL-encoded serialization of the form
parameters (keys in the encoder's sorted order) — for the current
`sesPost` (whose body and authorization header the modelled SDK signer
attaches) and for the older revision's `sesPost`, which sets the body
at construction. -/
theorem c3_request_shape (c : Config) (data : Values) (now scopeDate : String)
    (d2 : Values) (endpoint accessKeyID secretAccessKey date : String) :
    (buildSignedRequest c data now scopeDate).method = "POST" ∧
    (buildSignedRequest c data now scopeDate).url = c.Endpoint ∧
    requestHeader (buildSignedRequest c data now scopeDate) "Content-Type" =
      some "application/x-www-form-urlencoded" ∧
    requestHeader (buildSignedRequest c data now scopeDate) "Date" = some now ∧
    (buildSignedRequest c data now scopeDate).body = encode data ∧
    (V1.sesPostRequest d2 endpoint accessKeyID secretAccessKey date).method = "POST" ∧
    (V1.sesPostRequest d2 endpoint accessKeyID secretAccessKey date).url = endpoint ∧
    requestHeader (V1.sesPostRequest d2 endpoint accessKeyID secretAccessKey date)
      "Content-Type" = some "application/x-www-form-urlencoded" ∧
    requestHeader (V1.sesPostRequest d2 endpoint accessKeyID secretAccessKey date)
      "Date" = some date ∧
    (V1.sesPostRequest d2 endpoint accessKeyID secretAccessKey date).body = encode d2 := by
  refine ⟨rfl, rfl, ?_, ?_, rfl, rfl, rfl, ?_, ?_, rfl⟩ <;>
    simp [buildSignedRequest, sigv4Sign, requestHeader, V1.sesPostRequest]
